import Mathlib

/-!
Shallow embedding of the core of `swift-xet-rust-ffi` (files
`src/Rust/src/lib.rs` and `src/Rust/src/xet_metadata.rs`) and proofs about it.

Strings are processed through executable helpers over `List Char` that model
the Rust standard-library string operations used by the source
(`split`, `trim`, `starts_with`, `to_lowercase`, `parse::<u64>`, ...), so that
every definition evaluates by kernel reduction on concrete inputs.

Network and filesystem effects are passed in as explicit oracle functions
(`DownloadEnv`); pure logic (URL construction, header parsing, the token-cache
arithmetic, the fallback state machine, repository-identifier parsing) is
translated directly from the Rust source.
-/

namespace SwiftXet

/-- Character-list model of Rust `str::split(sep)` for a one-character
separator: keeps empty fragments, yields `[""]` on the empty string. -/
def splitChar (sep : Char) : List Char → List (List Char)
  | [] => [[]]
  | c :: cs =>
    match splitChar sep cs with
    | r :: rs => if c == sep then [] :: r :: rs else (c :: r) :: rs
    | [] => if c == sep then [[], []] else [[c]]

/-- String wrapper for `splitChar`. -/
def sSplit (sep : Char) (s : String) : List String :=
  (splitChar sep s.data).map String.mk

/-- Model of Rust `str::to_lowercase` (the inputs the source lowercases are
ASCII, where `Char.toLower` agrees with the Rust behaviour). -/
def lowerStr (s : String) : String := String.mk (s.data.map Char.toLower)

/-- Decimal-digit run to a number; `none` when empty or any non-digit. -/
def parseDigits : List Char → Option Nat
  | [] => none
  | cs =>
    if cs.all Char.isDigit then
      some (cs.foldl (fun acc c => acc * 10 + (c.toNat - 48)) 0)
    else none

/-- Model of Rust `u64::from_str` / `str::parse::<u64>()`: an optional leading
plus sign, at least one digit, value below `2^64`. -/
def parse_u64 (s : String) : Option Nat :=
  let ds := match s.data with
    | '+' :: rest => rest
    | cs => cs
  match parseDigits ds with
  | some n => if n < 2 ^ 64 then some n else none
  | none => none

/-- Boolean list-prefix test (model of Rust `str::starts_with`). -/
def listIsPre : List Char → List Char → Bool
  | [], _ => true
  | _ :: _, [] => false
  | p :: ps, c :: cs => p == c && listIsPre ps cs

/-- Model of Rust `str::starts_with` on strings. -/
def starts_with (s pat : String) : Bool := listIsPre pat.data s.data

/-- Boolean substring test (model of Rust `str::contains`). -/
def listContainsSub (pat : List Char) : List Char → Bool
  | [] => pat.isEmpty
  | c :: cs => listIsPre pat (c :: cs) || listContainsSub pat cs

/-- String wrapper for `listContainsSub`. -/
def contains_substring (s pat : String) : Bool := listContainsSub pat.data s.data

/-- Drop every leading and trailing occurrence of one character
(model of Rust `str::trim_matches(c)`). -/
def trimBothChar (t : Char) (cs : List Char) : List Char :=
  ((cs.dropWhile (fun c => c == t)).reverse.dropWhile (fun c => c == t)).reverse

/-- Drop leading and trailing whitespace (model of Rust `str::trim`). -/
def trimWs (cs : List Char) : List Char :=
  ((cs.dropWhile Char.isWhitespace).reverse.dropWhile Char.isWhitespace).reverse

/-- String wrapper for `trimWs`. -/
def trimWsStr (s : String) : String := String.mk (trimWs s.data)

/-- Model of Rust `str::trim_end_matches('/')`. -/
def trim_end_matches_slash (s : String) : String :=
  String.mk ((s.data.reverse.dropWhile (fun c => c == '/')).reverse)

/-- Fuelled worker for `trim_start_matches`; the caller supplies fuel at least
the length of the subject string, which bounds the number of removals. -/
def trimStartMatchesChars (pat : List Char) : Nat → List Char → List Char
  | 0, s => s
  | fuel + 1, s =>
    if !pat.isEmpty && listIsPre pat s then
      trimStartMatchesChars pat fuel (s.drop pat.length)
    else s

/-- Model of Rust `str::trim_start_matches(pat)`: repeatedly removes the
literal prefix `pat` from the front of `s`. -/
def trim_start_matches (pat s : String) : String :=
  String.mk (trimStartMatchesChars pat.data s.data.length s.data)

/-- Suffix after the first occurrence of a character
(model of Rust `str::find(c)` followed by slicing past the match). -/
def afterChar (t : Char) : List Char → Option (List Char)
  | [] => none
  | c :: cs => if c == t then some cs else afterChar t cs

/-- Content before the first occurrence of a character, `none` when absent. -/
def beforeChar (t : Char) : List Char → Option (List Char)
  | [] => none
  | c :: cs => if c == t then some [] else (beforeChar t cs).map (fun r => c :: r)

/-- Error type translated from `XetError` in `src/Rust/src/lib.rs`. -/
inductive XetError
  | OperationFailed (message : String)
  | InvalidInput (message : String)
  | IoError (message : String)
  | NetworkError (message : String)
  | AuthError (message : String)
  | CacheError (message : String)
  | TokenError (message : String)
deriving DecidableEq, Repr

/-- Display form of `XetError`, translated from its `thiserror` `#[error]`
format strings. -/
def XetError.display : XetError → String
  | .OperationFailed m => "Xet operation failed: " ++ m
  | .InvalidInput m => "Invalid input: " ++ m
  | .IoError m => "IO error: " ++ m
  | .NetworkError m => "Network error: " ++ m
  | .AuthError m => "Authentication error: " ++ m
  | .CacheError m => "Cache error: " ++ m
  | .TokenError m => "Token error: " ++ m

/-- Decidable equality for `Except`, used to evaluate concrete results. -/
instance instDecEqExcept {ε α : Type} [DecidableEq ε] [DecidableEq α] :
    DecidableEq (Except ε α) := fun x y =>
  match x, y with
  | .ok a, .ok b =>
    if h : a = b then .isTrue (congrArg Except.ok h)
    else .isFalse (fun hc => h (Except.ok.inj hc))
  | .error a, .error b =>
    if h : a = b then .isTrue (congrArg Except.error h)
    else .isFalse (fun hc => h (Except.error.inj hc))
  | .ok _, .error _ => .isFalse (fun hc => Except.noConfusion hc)
  | .error _, .ok _ => .isFalse (fun hc => Except.noConfusion hc)

/-- Response headers, modelled as an association list; reqwest's `HeaderMap`
lookup is case-insensitive on the name and returns the first value. -/
abbrev HeaderMap := List (String × String)

/-- Model of `headers.get(name)` followed by `to_str().ok()`. -/
def header_get (headers : HeaderMap) (name : String) : Option String :=
  (headers.find? (fun p => lowerStr p.1 == lowerStr name)).map (fun p => p.2)

/-- Translated from `header_to_string` in `src/Rust/src/xet_metadata.rs`:
header lookup, then `trim_matches('"')` and `trim`. -/
def header_to_string (headers : HeaderMap) (name : String) : Option String :=
  (header_get headers name).map (fun v => String.mk (trimWs (trimBothChar '"' v.data)))

/-- Header-name constants from `src/Rust/src/xet_metadata.rs`. -/
def HEADER_X_REPO_COMMIT : String := "x-repo-commit"

/-- Header-name constant `x-xet-hash`. -/
def HEADER_X_XET_HASH : String := "x-xet-hash"

/-- Header-name constant `x-xet-refresh-route`. -/
def HEADER_X_XET_REFRESH_ROUTE : String := "x-xet-refresh-route"

/-- Header-name constant `x-xet-cas-url`. -/
def HEADER_X_XET_ENDPOINT : String := "x-xet-cas-url"

/-- Header-name constant `x-xet-access-token`. -/
def HEADER_X_XET_ACCESS_TOKEN : String := "x-xet-access-token"

/-- Header-name constant `x-xet-token-expiration`. -/
def HEADER_X_XET_EXPIRATION : String := "x-xet-token-expiration"

/-- Header-name constant `x-linked-size`. -/
def HEADER_X_LINKED_SIZE : String := "x-linked-size"

/-- Header-name constant `x-linked-etag`. -/
def HEADER_X_LINKED_ETAG : String := "x-linked-etag"

/-- Default hosting endpoint constant `HF_ENDPOINT`. -/
def HF_ENDPOINT : String := "https://huggingface.co"

/-- Safety window (seconds) before nominal token expiry,
`TOKEN_CACHE_SAFETY_WINDOW` in the source. -/
def TOKEN_CACHE_SAFETY_WINDOW : Nat := 60

/-- Translated from `parse_total_from_content_range`: split on `/` and parse
the last component as `u64`. -/
def parse_total_from_content_range (value : String) : Option Nat :=
  parse_u64 ((sSplit '/' value).getLastD "")

/-- Translated from `parse_file_size`: prefer `x-linked-size`, then the total
of `Content-Range`, then `Content-Length`; all absent or unparseable is a
hard failure. -/
def parse_file_size (headers : HeaderMap) : Except XetError Nat :=
  match (header_to_string headers HEADER_X_LINKED_SIZE).bind parse_u64 with
  | some size => .ok size
  | none =>
    match (header_to_string headers "content-range").bind parse_total_from_content_range with
    | some total => .ok total
    | none =>
      match (header_to_string headers "content-length").bind parse_u64 with
      | some length => .ok length
      | none => .error (.NetworkError "Missing file size headers in response")

/-- Translated from `rewrite_refresh_route`: when the route string starts with
the literal default endpoint and the configured endpoint is nonempty, replace
every leading copy of that literal with the endpoint (trailing slashes
trimmed); otherwise return the route unchanged. -/
def rewrite_refresh_route (route : String) (endpoint : String) : String :=
  if starts_with route HF_ENDPOINT && !(endpoint == "") then
    let suffix := trim_start_matches HF_ENDPOINT route
    let normalized_endpoint := trim_end_matches_slash endpoint
    normalized_endpoint ++ suffix
  else route

/-- URL inside the first `<...>` segment of a Link-header fragment (Rust
`find('<')` then `find('>')` on the remainder). -/
def angle_url (frag : String) : Option String :=
  match afterChar '<' frag.data with
  | none => none
  | some rest =>
    match beforeChar '>' rest with
    | none => none
    | some url => some (String.mk url)

/-- Loop body of `extract_refresh_route` over the comma-separated fragments of
the Link header value. -/
def extract_refresh_route_frags (endpoint : String) : List String → Option String
  | [] => none
  | frag :: rest =>
    if contains_substring (lowerStr frag) "rel=\"xet-auth\"" then
      match angle_url frag with
      | some raw => some (rewrite_refresh_route (trimWsStr raw) endpoint)
      | none => extract_refresh_route_frags endpoint rest
    else extract_refresh_route_frags endpoint rest

/-- Translated from `extract_refresh_route`: scan the raw Link header value for
a fragment whose `rel` parameter is `xet-auth` and return its rewritten URL. -/
def extract_refresh_route (headers : HeaderMap) (endpoint : String) : Option String :=
  match header_get headers "link" with
  | none => none
  | some link_value => extract_refresh_route_frags endpoint (sSplit ',' link_value)

/-- CAS addressing data, translated from `XetFileData`. -/
structure XetFileData where
  file_hash : String
  refresh_route : String
deriving DecidableEq, Repr

/-- Translated from `parse_xet_file_data`: requires the CAS hash header; the
refresh route comes from the Link header in preference to the dedicated
`x-xet-refresh-route` header, each rewritten via `rewrite_refresh_route`. -/
def parse_xet_file_data (headers : HeaderMap) (endpoint : String) : Option XetFileData :=
  match header_to_string headers HEADER_X_XET_HASH with
  | none => none
  | some hash =>
    match extract_refresh_route headers endpoint with
    | some route => some ⟨hash, route⟩
    | none =>
      match header_to_string headers HEADER_X_XET_REFRESH_ROUTE with
      | some route => some ⟨hash, rewrite_refresh_route route endpoint⟩
      | none => none

/-- Resolved file metadata, translated from `FileResolveMetadata`. -/
structure FileResolveMetadata where
  download_url : String
  etag : String
  commit_hash : String
  size : Nat
  xet_file_data : Option XetFileData
deriving DecidableEq, Repr

/-- Response as consumed by `parse_metadata_from_response`: the final URL and
the header map. -/
structure ResponseModel where
  url : String
  headers : HeaderMap

/-- Translated from `parse_metadata_from_response`. -/
def parse_metadata_from_response (response : ResponseModel) (endpoint : String) :
    Except XetError FileResolveMetadata :=
  let headers := response.headers
  match header_to_string headers HEADER_X_REPO_COMMIT with
  | none => .error (.NetworkError "Missing X-Repo-Commit header")
  | some commit_hash =>
    match (header_to_string headers HEADER_X_LINKED_ETAG).orElse
        (fun _ => header_to_string headers "etag") with
    | none => .error (.NetworkError "Missing ETag header")
    | some etag =>
      match parse_file_size headers with
      | .error e => .error e
      | .ok size =>
        .ok ⟨response.url, etag, commit_hash, size, parse_xet_file_data headers endpoint⟩

/-- CAS token record, translated from `CasJwtInfo` / `hub_client::CasJWTInfo`;
`exp` is a unix timestamp in seconds. -/
structure CasJwtInfo where
  cas_url : String
  access_token : String
  exp : Nat
deriving DecidableEq, Repr

/-- Cache entry, translated from `CachedToken`; `expires_at` is a monotonic
instant, modelled as seconds on an arbitrary monotonic axis. -/
structure CachedToken where
  value : CasJwtInfo
  expires_at : Nat
deriving DecidableEq, Repr

/-- Translated from `CachedToken::is_valid`: the entry is valid while the
monotonic clock reads strictly less than `expires_at`; `inst_now` is the
monotonic reading `Instant::now()` at the moment of the check. -/
def CachedToken.is_valid (ct : CachedToken) (inst_now : Nat) : Bool :=
  inst_now < ct.expires_at

/-- Token cache contents, modelling the `HashMap` inside `TOKEN_CACHE`. -/
abbrev TokenCache := List (String × CachedToken)

/-- Model of `HashMap::get` on the token cache. -/
def cache_lookup (cache : TokenCache) (key : String) : Option CachedToken :=
  (cache.find? (fun p => p.1 == key)).map (fun p => p.2)

/-- Model of `HashMap::insert` on the token cache: the new entry replaces any
entry with the same key. -/
def cache_insert (cache : TokenCache) (key : String) (ct : CachedToken) : TokenCache :=
  (key, ct) :: cache.filter (fun p => !(p.1 == key))

/-- Largest monotonic reading representable by `Instant`: on Linux an
`Instant` wraps a `timespec` whose seconds field is an `i64`, so
`checked_add` fails once the seconds sum exceeds `i64::MAX`
(9223372036854775807 = 2^63 - 1). -/
def INSTANT_MAX : Nat := 9223372036854775807

/-- Translated from `compute_cache_expiry`. Time is modelled in seconds:
`now_unix` is the system clock reading (`SystemTime::now` since the epoch) and
`inst_now` the monotonic reading (`Instant::now`), both taken at the same
moment. The `ttl` subtraction is Rust `saturating_sub`; the first branch
models `Instant::checked_add` returning `None` (the sum exceeds the
representable monotonic range) and the second models `checked_sub` returning
`None`; both fall back to `Instant::now()` via `unwrap_or_else`. -/
def compute_cache_expiry (now_unix inst_now exp : Nat) : Nat :=
  let ttl := exp - now_unix
  if INSTANT_MAX < inst_now + ttl then inst_now
  else if inst_now + ttl < TOKEN_CACHE_SAFETY_WINDOW then inst_now
  else inst_now + ttl - TOKEN_CACHE_SAFETY_WINDOW

/-- Translated from `cache_token`: insert the token under `key` with expiry
computed by `compute_cache_expiry`. -/
def cache_token (cache : TokenCache) (key : String) (token : CasJwtInfo)
    (now_unix inst_now : Nat) : TokenCache :=
  cache_insert cache key ⟨token, compute_cache_expiry now_unix inst_now token.exp⟩

/-- Refresh path of `get_cached_cas_jwt`: the network exchange (authenticated
GET on the refresh route, `error_for_status`) is abstracted as `fetch_response`,
an already-mapped `XetError` or the response header map; the three required
headers are then parsed exactly as in the source. -/
def refresh_cas_jwt (fetch_response : Except XetError HeaderMap) (cache : TokenCache)
    (refresh_route : String) (now_unix inst_now : Nat) :
    Except XetError (CasJwtInfo × TokenCache) :=
  match fetch_response with
  | .error e => .error e
  | .ok headers =>
    match header_to_string headers HEADER_X_XET_ENDPOINT with
    | none => .error (.NetworkError "CAS endpoint header missing")
    | some endpoint =>
      match header_to_string headers HEADER_X_XET_ACCESS_TOKEN with
      | none => .error (.NetworkError "CAS access token header missing")
      | some access_token =>
        match (header_to_string headers HEADER_X_XET_EXPIRATION).bind parse_u64 with
        | none => .error (.NetworkError "CAS expiration header missing")
        | some expiration =>
          let cas_jwt : CasJwtInfo := ⟨endpoint, access_token, expiration⟩
          .ok (cas_jwt, cache_token cache refresh_route cas_jwt now_unix inst_now)

/-- Translated from `get_cached_cas_jwt`: return the cached token when present
and still valid; otherwise refresh over the network and cache the result.
The cache is threaded explicitly (the source keeps it in a process-wide
mutex-guarded map). -/
def get_cached_cas_jwt (fetch_response : Except XetError HeaderMap) (cache : TokenCache)
    (refresh_route : String) (now_unix inst_now : Nat) :
    Except XetError (CasJwtInfo × TokenCache) :=
  match cache_lookup cache refresh_route with
  | some cached =>
    if cached.is_valid inst_now then .ok (cached.value, cache)
    else refresh_cas_jwt fetch_response cache refresh_route now_unix inst_now
  | none => refresh_cas_jwt fetch_response cache refresh_route now_unix inst_now

/-- Repository type, translated from `hub_client::HFRepoType`. -/
inductive HFRepoType
  | Model
  | Dataset
  | Space
deriving DecidableEq, Repr

/-- Parsed repository identity, translated from `hub_client::RepoInfo`. -/
structure HubRepoInfo where
  repo_type : HFRepoType
  full_name : String
deriving DecidableEq, Repr

/-- Modelled from the spec: `hub_client::RepoInfo::try_from` lives in the
external `hub_client` crate, not in this repository. Per the spec, parsing
"yields the expected (repo_type, full_name)" and "is case-insensitive on the
type segment" for the singular and plural type words; unknown type words fail
(invalid strings fail resolution, never partially constructed). -/
def hub_repo_info_try_from (repo_type_str : String) (repo_id : String) :
    Except String HubRepoInfo :=
  match lowerStr repo_type_str with
  | "model" => .ok ⟨.Model, repo_id⟩
  | "models" => .ok ⟨.Model, repo_id⟩
  | "dataset" => .ok ⟨.Dataset, repo_id⟩
  | "datasets" => .ok ⟨.Dataset, repo_id⟩
  | "space" => .ok ⟨.Space, repo_id⟩
  | "spaces" => .ok ⟨.Space, repo_id⟩
  | other => .error ("unknown repository type: " ++ other)

/-- Translated from `XetClient::parse_repo` in `src/Rust/src/lib.rs`. -/
def parse_repo (repo : String) : Except XetError HubRepoInfo :=
  let parts := sSplit '/' repo
  if parts.length < 2 then
    .error (.InvalidInput
      ("Repository identifier must be in format 'owner/repo' or 'type/owner/repo', got: "
        ++ repo))
  else
    let tfResult :=
      if parts.length ≥ 3 then
        let first := lowerStr (parts.headD "")
        if first = "models" ∨ first = "model" ∨ first = "datasets" ∨ first = "dataset"
            ∨ first = "spaces" ∨ first = "space" then
          hub_repo_info_try_from (parts.headD "") (String.intercalate "/" (parts.drop 1))
        else
          hub_repo_info_try_from "model" repo
      else
        hub_repo_info_try_from "model" repo
    match tfResult with
    | .ok info => .ok info
    | .error e => .error (.InvalidInput ("Invalid repository: " ++ e))

/-- Translated from `XetClient::repo_type_plural`. -/
def repo_type_plural : HFRepoType → String
  | .Model => "models"
  | .Dataset => "datasets"
  | .Space => "spaces"

/-- UTF-8 bytes of one character (standard four-case encoding); used by the
URL-encoding model. -/
def utf8Bytes (c : Char) : List Nat :=
  let n := c.toNat
  if n < 0x80 then [n]
  else if n < 0x800 then [0xC0 + n / 0x40, 0x80 + n % 0x40]
  else if n < 0x10000 then
    [0xE0 + n / 0x1000, 0x80 + (n / 0x40) % 0x40, 0x80 + n % 0x40]
  else
    [0xF0 + n / 0x40000, 0x80 + (n / 0x1000) % 0x40, 0x80 + (n / 0x40) % 0x40, 0x80 + n % 0x40]

/-- Bytes the `urlencoding` crate leaves unescaped: ASCII alphanumerics and
`-`, `.`, `_`, `~`. -/
def isUrlSafeByte (b : Nat) : Bool :=
  (0x41 ≤ b && b ≤ 0x5A) || (0x61 ≤ b && b ≤ 0x7A) || (0x30 ≤ b && b ≤ 0x39)
    || b == 0x2D || b == 0x2E || b == 0x5F || b == 0x7E

/-- Uppercase hexadecimal digit for a value below 16. -/
def hexDigit (n : Nat) : Char :=
  if n < 10 then Char.ofNat (0x30 + n) else Char.ofNat (0x41 + n - 10)

/-- Percent-encoding of one byte, `%XX` with uppercase hex. -/
def percentByte (b : Nat) : String :=
  String.mk ['%', hexDigit (b / 16), hexDigit (b % 16)]

/-- Model of `urlencoding::encode`: safe ASCII bytes pass through, every other
byte of the UTF-8 encoding is percent-encoded. -/
def urlencode (s : String) : String :=
  String.join (s.data.map (fun c =>
    let bs := utf8Bytes c
    if bs.all isUrlSafeByte then String.mk [c]
    else String.join (bs.map percentByte)))

/-- Translated from `canonical_repo_prefix` in `src/Rust/src/xet_metadata.rs`. -/
def canonical_repo_pfx (repo_type_plural_s : String) : String :=
  match repo_type_plural_s with
  | "models" => ""
  | "datasets" => "datasets/"
  | "spaces" => "spaces/"
  | _ => ""

/-- Candidate resolve URLs built by `fetch_file_metadata`
(`src/Rust/src/xet_metadata.rs` lines 85-102): canonical form, API form with
revision in path, API form with revision as query, and a no-prefix legacy
fallback. The endpoint's trailing slashes are trimmed first, as in the source. -/
def candidate_urls (endpoint repo_type_plural_s repo_full_name path revision : String) :
    List String :=
  let endpoint := trim_end_matches_slash endpoint
  let encoded_path := urlencode path
  let encoded_rev := urlencode revision
  let canonical_pfx := canonical_repo_pfx repo_type_plural_s
  [endpoint ++ "/" ++ canonical_pfx ++ repo_full_name ++ "/resolve/" ++ encoded_rev
      ++ "/" ++ encoded_path,
    endpoint ++ "/api/" ++ repo_type_plural_s ++ "/" ++ repo_full_name ++ "/resolve/"
      ++ encoded_rev ++ "/" ++ encoded_path,
    endpoint ++ "/api/" ++ repo_type_plural_s ++ "/" ++ repo_full_name ++ "/resolve/"
      ++ encoded_path ++ "?revision=" ++ encoded_rev,
    endpoint ++ "/" ++ repo_full_name ++ "/resolve/" ++ encoded_rev ++ "/" ++ encoded_path]

/-- Translated from `XetClient::build_resolve_urls` (`src/Rust/src/lib.rs`
lines 1489-1525); the client's endpoint is used as stored, untrimmed. -/
def build_resolve_urls (endpoint : String) (repo_info : HubRepoInfo)
    (path revision : String) : List String :=
  let encoded_path := urlencode path
  let encoded_rev := urlencode revision
  let canonical_pfx :=
    match repo_info.repo_type with
    | .Model => ""
    | .Dataset => "datasets/"
    | .Space => "spaces/"
  [endpoint ++ "/" ++ canonical_pfx ++ repo_info.full_name ++ "/resolve/" ++ encoded_rev
      ++ "/" ++ encoded_path,
    endpoint ++ "/api/" ++ repo_type_plural repo_info.repo_type ++ "/" ++ repo_info.full_name
      ++ "/resolve/" ++ encoded_rev ++ "/" ++ encoded_path,
    endpoint ++ "/api/" ++ repo_type_plural repo_info.repo_type ++ "/" ++ repo_info.full_name
      ++ "/resolve/" ++ encoded_path ++ "?revision=" ++ encoded_rev]

/-- Parsed URL as consumed by `should_send_auth`: the only datum it reads is
`Url::domain()`, recorded here. URL parsing itself is performed by the
external `url` crate and is abstracted as an oracle
`String → Option UrlModel` (`none` models `Url::parse` failure), exactly as
the other external collaborators are. -/
structure UrlModel where
  domain : Option String
deriving DecidableEq, Repr

/-- Client state relevant to the pure logic: the configured endpoint (always
"https://huggingface.co" in the source constructors) and the optional bearer
token. -/
structure XetClientModel where
  endpoint : String
  token : Option String
deriving DecidableEq, Repr

/-- Translated from `XetClient::should_send_auth` (`src/Rust/src/lib.rs`
lines 1603-1612): no token means no auth; when both URLs parse, compare
`Url::domain`; when either fails to parse, auth is sent. `parse` is the
external `url` crate's `Url::parse`, passed as an oracle. -/
def should_send_auth (parse : String → Option UrlModel) (client : XetClientModel)
    (download_url : String) : Bool :=
  match client.token with
  | none => false
  | some _ =>
    match parse download_url, parse client.endpoint with
    | some target, some base => target.domain == base.domain
    | _, _ => true

/-- Concrete URL-parse oracle agreeing with `url::Url::parse` on the inputs
the C5 theorems evaluate: "not a url" has no scheme, so `Url::parse` fails
with `RelativeUrlWithoutBase`; the default endpoint and the third-party CDN
URL parse with their hosts as domains. All other strings are irrelevant to
those evaluations. -/
def urlParseFixture : String → Option UrlModel := fun s =>
  if s == "https://huggingface.co" then some ⟨some "huggingface.co"⟩
  else if s == "https://cdn.example.org/f" then some ⟨some "cdn.example.org"⟩
  else none

/-- Download-path states of the orchestration in `XetClient::download_file`
and `XetClient::get_file_content` (spec section 4.3). -/
inductive DState
  | resolveMetadata
  | tryCas
  | tryHttp
  | legacy
deriving DecidableEq, Repr

/-- Effect oracles for the orchestrator. `fetchMeta` abstracts the network
side of `fetch_file_metadata` (repo type plural, full name, path, revision);
`casDownload` abstracts `download_with_xet_async` (destination preparation,
token refresh and the external transfer engine); `http` abstracts the send
and body read inside `http_get_bytes`, given the URL and whether bearer auth
is attached; `writeFile` abstracts `prepare_destination` plus `fs::write`;
`legacyGet` abstracts one GET + status check + body read of the legacy loops,
failing with the formatted per-candidate error string; `urlParse` abstracts
the `url` crate's `Url::parse` as consulted by `should_send_auth`. -/
structure DownloadEnv where
  fetchMeta : String → String → String → String → Except XetError FileResolveMetadata
  casDownload : XetFileData → Nat → String → Except XetError Unit
  http : String → Bool → Except XetError (List Nat)
  writeFile : String → List Nat → Except XetError Unit
  legacyGet : String → Except String (List Nat)
  urlParse : String → Option UrlModel

/-- Translated from `XetClient::http_get_bytes`: the auth decision is
`should_send_auth`; the transfer itself is the oracle. -/
def http_get_bytes (env : DownloadEnv) (client : XetClientModel) (url : String) :
    Except XetError (List Nat) :=
  env.http url (should_send_auth env.urlParse client url)

/-- Translated from `XetClient::download_http_with_metadata`: fetch the
resolved `download_url` and write the bytes to the destination. -/
def download_http_with_metadata (env : DownloadEnv) (client : XetClientModel)
    (metadata : FileResolveMetadata) (destination : String) : Except XetError Unit :=
  match http_get_bytes env client metadata.download_url with
  | .ok bytes => env.writeFile destination bytes
  | .error e => .error e

/-- Loop of `XetClient::download_file_legacy` over the candidate URLs: a
successful GET is written to the destination (a write failure aborts, as the
source propagates it with `?`); a failed GET records the error and continues. -/
def legacy_download_loop (env : DownloadEnv) (destination : String) :
    List String → Option String → Except XetError Unit
  | [], last_error =>
    .error (.NetworkError
      ("Could not download file. Tried multiple endpoints. Last error: "
        ++ last_error.getD "Unknown error"))
  | url :: rest, _last_error =>
    match env.legacyGet url with
    | .ok bytes =>
      match env.writeFile destination bytes with
      | .ok _ => .ok ()
      | .error e => .error e
    | .error msg => legacy_download_loop env destination rest (some msg)

/-- Translated from `XetClient::download_file_legacy`. -/
def download_file_legacy (env : DownloadEnv) (client : XetClientModel)
    (repo_info : HubRepoInfo) (path destination : String) (revision : Option String) :
    Except XetError Unit :=
  let revision := revision.getD "main"
  let urls_to_try := build_resolve_urls client.endpoint repo_info path revision
  legacy_download_loop env destination urls_to_try none

/-- Loop of `XetClient::get_file_content_legacy` over the candidate URLs:
the first successful GET's body is returned. -/
def legacy_content_loop (env : DownloadEnv) :
    List String → Option String → Except XetError (List Nat)
  | [], last_error =>
    .error (.NetworkError
      ("Could not retrieve file. Tried multiple endpoints. Last error: "
        ++ last_error.getD "Unknown error"))
  | url :: rest, _last_error =>
    match env.legacyGet url with
    | .ok bytes => .ok bytes
    | .error msg => legacy_content_loop env rest (some msg)

/-- Translated from `XetClient::get_file_content_legacy`. -/
def get_file_content_legacy (env : DownloadEnv) (client : XetClientModel)
    (repo_info : HubRepoInfo) (path : String) (revision : String) :
    Except XetError (List Nat) :=
  legacy_content_loop env (build_resolve_urls client.endpoint repo_info path revision) none

/-- Translated from `XetClient::download_file` (`src/Rust/src/lib.rs` lines
933-997), instrumented with the list of orchestration states attempted, in
order. Empty-argument guards and `parse_repo` run before any state. -/
def download_file_trace (env : DownloadEnv) (client : XetClientModel)
    (repo path destination : String) (revision : Option String) :
    Except XetError Unit × List DState :=
  if repo = "" then (.error (.InvalidInput "Repository cannot be empty"), [])
  else if path = "" then (.error (.InvalidInput "Path cannot be empty"), [])
  else if destination = "" then (.error (.InvalidInput "Destination cannot be empty"), [])
  else
    match parse_repo repo with
    | .error e => (.error e, [])
    | .ok repo_info =>
      match env.fetchMeta (repo_type_plural repo_info.repo_type) repo_info.full_name
          path (revision.getD "main") with
      | .ok metadata =>
        match metadata.xet_file_data with
        | some xet_data =>
          match env.casDownload xet_data metadata.size destination with
          | .ok _ => (.ok (), [.resolveMetadata, .tryCas])
          | .error _ =>
            match download_http_with_metadata env client metadata destination with
            | .ok _ => (.ok (), [.resolveMetadata, .tryCas, .tryHttp])
            | .error _ =>
              (download_file_legacy env client repo_info path destination
                  (some (revision.getD "main")),
                [.resolveMetadata, .tryCas, .tryHttp, .legacy])
        | none =>
          match download_http_with_metadata env client metadata destination with
          | .ok _ => (.ok (), [.resolveMetadata, .tryHttp])
          | .error _ =>
            (download_file_legacy env client repo_info path destination
                (some (revision.getD "main")),
              [.resolveMetadata, .tryHttp, .legacy])
      | .error _ =>
        (download_file_legacy env client repo_info path destination
            (some (revision.getD "main")),
          [.resolveMetadata, .legacy])

/-- Result part of `download_file_trace`; the public `download_file`. -/
def download_file (env : DownloadEnv) (client : XetClientModel)
    (repo path destination : String) (revision : Option String) : Except XetError Unit :=
  (download_file_trace env client repo path destination revision).1

/-- Translated from `XetClient::get_file_content` (`src/Rust/src/lib.rs` lines
705-739), instrumented with the list of orchestration states attempted. On
resolved metadata it fetches `download_url` directly; on any failure it falls
back to the legacy loop. It has no CAS state and no pointer-file handling. -/
def get_file_content_trace (env : DownloadEnv) (client : XetClientModel)
    (repo path : String) (revision : Option String) :
    Except XetError (List Nat) × List DState :=
  if repo = "" then (.error (.InvalidInput "Repository cannot be empty"), [])
  else if path = "" then (.error (.InvalidInput "Path cannot be empty"), [])
  else
    match parse_repo repo with
    | .error e => (.error e, [])
    | .ok repo_info =>
      match env.fetchMeta (repo_type_plural repo_info.repo_type) repo_info.full_name
          path (revision.getD "main") with
      | .ok metadata =>
        match http_get_bytes env client metadata.download_url with
        | .ok bytes => (.ok bytes, [.resolveMetadata, .tryHttp])
        | .error _ =>
          (get_file_content_legacy env client repo_info path (revision.getD "main"),
            [.resolveMetadata, .tryHttp, .legacy])
      | .error _ =>
        (get_file_content_legacy env client repo_info path (revision.getD "main"),
          [.resolveMetadata, .legacy])

/-- Result part of `get_file_content_trace`. -/
def get_file_content (env : DownloadEnv) (client : XetClientModel)
    (repo path : String) (revision : Option String) : Except XetError (List Nat) :=
  (get_file_content_trace env client repo path revision).1

/-- Batch request record, translated from `FileDownloadRequest`. -/
structure FileDownloadRequest where
  repo : String
  path : String
  destination : String
  revision : Option String
deriving DecidableEq, Repr

/-- Translated from `XetClient::download_files_batch` (`src/Rust/src/lib.rs`
lines 1017-1040), parameterised by the per-file download (the source calls
`self.download_file`) and instrumented with the list of requests attempted:
requests run sequentially; a success appends its destination; the first
failure stops the loop and the call returns only an `OperationFailed` error
naming the failing path and error. -/
def download_files_batch_trace (dl : FileDownloadRequest → Except XetError Unit) :
    List FileDownloadRequest → Except XetError (List String) × List FileDownloadRequest
  | [] => (.ok [], [])
  | request :: rest =>
    match dl request with
    | .ok _ =>
      match download_files_batch_trace dl rest with
      | (.ok results, attempted) => (.ok (request.destination :: results), request :: attempted)
      | (.error e, attempted) => (.error e, request :: attempted)
    | .error e =>
      (.error (.OperationFailed
          ("Failed to download " ++ request.path ++ ": " ++ e.display)),
        [request])

/-- Result part of `download_files_batch_trace`. -/
def download_files_batch (dl : FileDownloadRequest → Except XetError Unit)
    (requests : List FileDownloadRequest) : Except XetError (List String) :=
  (download_files_batch_trace dl requests).1

/-- Instantiation of the batch loop with the orchestrated `download_file`, as
in the source. -/
def download_files_batch_client (env : DownloadEnv) (client : XetClientModel)
    (requests : List FileDownloadRequest) : Except XetError (List String) :=
  download_files_batch
    (fun r => download_file env client r.repo r.path r.destination r.revision) requests

/-- Client as built by `XetClient::new`: default endpoint, no token. -/
def clientNoToken : XetClientModel := ⟨"https://huggingface.co", none⟩

/-- Concrete environment in which metadata resolution fails. -/
def envResolveFail : DownloadEnv where
  fetchMeta := fun _ _ _ _ => .error (.NetworkError "offline")
  casDownload := fun _ _ _ => .error (.NetworkError "no cas")
  http := fun _ _ => .error (.NetworkError "no http")
  writeFile := fun _ _ => .ok ()
  legacyGet := fun _ => .error "refused"
  urlParse := urlParseFixture

/-- Concrete environment in which metadata resolution yields CAS data, the CAS
transfer succeeds, and both the HTTP-direct path and every legacy candidate
fail. -/
def envCasOnly : DownloadEnv where
  fetchMeta := fun _ _ _ _ =>
    .ok ⟨"https://huggingface.co/o/r/resolve/main/f", "etag", "commit", 5,
      some ⟨"hash", "route"⟩⟩
  casDownload := fun _ _ _ => .ok ()
  http := fun _ _ => .error (.NetworkError "http down")
  writeFile := fun _ _ => .ok ()
  legacyGet := fun _ => .error "down"
  urlParse := urlParseFixture

/-- Concrete per-file download oracle that fails exactly on path "b". -/
def batchDl (r : FileDownloadRequest) : Except XetError Unit :=
  if r.path = "b" then .error (.NetworkError "boom") else .ok ()

/-- Concrete batch of three requests whose second fails under `batchDl`. -/
def batchReqs : List FileDownloadRequest :=
  [⟨"o/r", "a", "/tmp/a", none⟩, ⟨"o/r", "b", "/tmp/b", none⟩, ⟨"o/r", "c", "/tmp/c", none⟩]

/-- C8: for every response header map, the resolved size prefers a numeric
`x-linked-size`, then the TOTAL of `Content-Range`, then `Content-Length`,
and fails hard when none yields a size; with `x-linked-size: 1234` the size is
1234 even though `Content-Length` differs. -/
theorem parse_file_size_spec :
    (∀ headers v n, header_to_string headers HEADER_X_LINKED_SIZE = some v →
      parse_u64 v = some n → parse_file_size headers = .ok n)
  ∧ (∀ headers v n,
      (header_to_string headers HEADER_X_LINKED_SIZE).bind parse_u64 = none →
      header_to_string headers "content-range" = some v →
      parse_total_from_content_range v = some n → parse_file_size headers = .ok n)
  ∧ (∀ headers v n,
      (header_to_string headers HEADER_X_LINKED_SIZE).bind parse_u64 = none →
      (header_to_string headers "content-range").bind parse_total_from_content_range = none →
      header_to_string headers "content-length" = some v → parse_u64 v = some n →
      parse_file_size headers = .ok n)
  ∧ (∀ headers,
      (header_to_string headers HEADER_X_LINKED_SIZE).bind parse_u64 = none →
      (header_to_string headers "content-range").bind parse_total_from_content_range = none →
      (header_to_string headers "content-length").bind parse_u64 = none →
      parse_file_size headers = .error (.NetworkError "Missing file size headers in response"))
  ∧ parse_file_size [("x-linked-size", "1234"), ("content-length", "999")] = .ok 1234
  ∧ parse_file_size [("content-range", "bytes 0-0/98765"), ("content-length", "1")]
      = .ok 98765 := by
  refine ⟨?_, ?_, ?_, ?_, by decide, by decide⟩
  · intro headers v n hv hn
    simp [parse_file_size, hv, hn]
  · intro headers v n h1 hv hn
    simp [parse_file_size, h1, hv, hn]
  · intro headers v n h1 h2 hv hn
    simp [parse_file_size, h1, h2, hv, hn]
  · intro headers h1 h2 h3
    simp [parse_file_size, h1, h2, h3]

/-- Witness for `parse_file_size_spec` at a concrete header map. -/
theorem parse_file_size_spec_witness :
    parse_file_size [("x-linked-size", "5"), ("content-range", "bytes 0-0/7")] = .ok 5 :=
  parse_file_size_spec.1 [("x-linked-size", "5"), ("content-range", "bytes 0-0/7")]
    "5" 5 (by decide) (by decide)

/-- C9: well-formed identifiers of the documented shapes parse to the expected
type and full name, case-insensitively on the type segment; identifiers with
fewer than two slash-separated segments fail with `InvalidInput`. -/
theorem parse_repo_spec :
    (∀ repo t o n, sSplit '/' repo = [t, o, n] →
      (lowerStr t = "models" ∨ lowerStr t = "model") →
      parse_repo repo = .ok ⟨.Model, String.intercalate "/" [o, n]⟩)
  ∧ (∀ repo t o n, sSplit '/' repo = [t, o, n] →
      (lowerStr t = "datasets" ∨ lowerStr t = "dataset") →
      parse_repo repo = .ok ⟨.Dataset, String.intercalate "/" [o, n]⟩)
  ∧ (∀ repo t o n, sSplit '/' repo = [t, o, n] →
      (lowerStr t = "spaces" ∨ lowerStr t = "space") →
      parse_repo repo = .ok ⟨.Space, String.intercalate "/" [o, n]⟩)
  ∧ (∀ repo, (sSplit '/' repo).length = 2 → parse_repo repo = .ok ⟨.Model, repo⟩)
  ∧ (∀ repo, (sSplit '/' repo).length < 2 →
      ∃ msg, parse_repo repo = .error (.InvalidInput msg))
  ∧ parse_repo "owner/repo" = .ok ⟨.Model, "owner/repo"⟩
  ∧ parse_repo "models/owner/repo" = .ok ⟨.Model, "owner/repo"⟩
  ∧ parse_repo "DataSets/owner/repo" = .ok ⟨.Dataset, "owner/repo"⟩
  ∧ parse_repo "space/owner/repo" = .ok ⟨.Space, "owner/repo"⟩
  ∧ (∃ msg, parse_repo "justoneword" = .error (.InvalidInput msg)) := by
  refine ⟨?_, ?_, ?_, ?_, ?_, by decide, by decide, by decide, by decide,
    ⟨"Repository identifier must be in format 'owner/repo' or 'type/owner/repo', got: justoneword",
      by decide⟩⟩
  · intro repo t o n hsplit ht
    rcases ht with h | h <;>
      simp [parse_repo, hub_repo_info_try_from, hsplit, h]
  · intro repo t o n hsplit ht
    rcases ht with h | h <;>
      simp [parse_repo, hub_repo_info_try_from, hsplit, h]
  · intro repo t o n hsplit ht
    rcases ht with h | h <;>
      simp [parse_repo, hub_repo_info_try_from, hsplit, h]
  · intro repo h2
    simp [parse_repo, h2, hub_repo_info_try_from, lowerStr]
  · intro repo h
    exact ⟨"Repository identifier must be in format 'owner/repo' or 'type/owner/repo', got: "
        ++ repo,
      by simp [parse_repo, h]⟩

/-- Witness for `parse_repo_spec` at a concrete identifier. -/
theorem parse_repo_spec_witness :
    parse_repo "DATASETS/o/n" = .ok ⟨.Dataset, String.intercalate "/" ["o", "n"]⟩ :=
  parse_repo_spec.2.1 "DATASETS/o/n" "DATASETS" "o" "n" (by decide) (Or.inl (by decide))

/-- C10: an identifier with exactly two slash-separated segments is always a
model repository whose full name is the whole identifier, even when the first
segment is a type word: "datasets/foo" is the model "datasets/foo". -/
theorem parse_repo_two_segments :
    (∀ repo, (sSplit '/' repo).length = 2 → parse_repo repo = .ok ⟨.Model, repo⟩)
  ∧ parse_repo "datasets/foo" = .ok ⟨.Model, "datasets/foo"⟩ := by
  refine ⟨?_, by decide⟩
  intro repo h2
  simp [parse_repo, h2, hub_repo_info_try_from, lowerStr]

/-- Witness for `parse_repo_two_segments` at a concrete identifier. -/
theorem parse_repo_two_segments_witness :
    parse_repo "spaces/bar" = .ok ⟨.Model, "spaces/bar"⟩ :=
  parse_repo_two_segments.1 "spaces/bar" (by decide)

/-- C2 counterexample: for a header-supplied expiration near `u64::MAX`
(accepted by `parse_u64`, so reachable through `x-xet-token-expiration`),
`Instant::checked_add` overflows and `compute_cache_expiry` falls back to
`Instant::now()`: the cached `expires_at` is the caching instant itself — an
immediately-expired entry — not the token's `exp` converted to monotonic time
minus the 60-second safety window. -/
theorem compute_cache_expiry_counterexample :
    compute_cache_expiry 1000 500 18446744073709551615 = 500
    ∧ 500 + (18446744073709551615 - 1000) - 60 ≠ 500 := by
  decide

/-- C2 amended: whenever `exp` converted to the monotonic axis is
representable (`inst_now + (exp - now_unix) ≤ INSTANT_MAX`), a cached entry's
`expires_at` is that converted instant minus the 60-second safety window, and
with `exp = now + 120` the token is valid immediately and invalid at elapsed
61 seconds; beyond the representable range the overflow fallback caches an
entry that expires at the caching instant itself. In all cases a token is
never reported valid within 60 seconds of its real expiry, and the cache
stores exactly the `compute_cache_expiry` expiry for a freshly fetched
token. -/
theorem token_cache_safety_window_spec :
    (∀ now_unix inst_now exp, now_unix + 60 ≤ exp →
      inst_now + (exp - now_unix) ≤ INSTANT_MAX →
      compute_cache_expiry now_unix inst_now exp = inst_now + (exp - now_unix) - 60)
  ∧ (∀ now_unix inst_now exp, INSTANT_MAX < inst_now + (exp - now_unix) →
      compute_cache_expiry now_unix inst_now exp = inst_now)
  ∧ (∀ now_unix inst_now exp s v, inst_now ≤ s →
      CachedToken.is_valid ⟨v, compute_cache_expiry now_unix inst_now exp⟩ s = true →
      now_unix + (s - inst_now) + 60 < exp)
  ∧ (∀ now_unix inst_now v, inst_now + 120 ≤ INSTANT_MAX →
      CachedToken.is_valid
          ⟨v, compute_cache_expiry now_unix inst_now (now_unix + 120)⟩ inst_now = true
      ∧ CachedToken.is_valid
          ⟨v, compute_cache_expiry now_unix inst_now (now_unix + 120)⟩ (inst_now + 61) = false)
  ∧ (∀ fetched cache route now_unix inst_now u t exp,
      cache_lookup cache route = none →
      header_to_string fetched HEADER_X_XET_ENDPOINT = some u →
      header_to_string fetched HEADER_X_XET_ACCESS_TOKEN = some t →
      (header_to_string fetched HEADER_X_XET_EXPIRATION).bind parse_u64 = some exp →
      get_cached_cas_jwt (.ok fetched) cache route now_unix inst_now
          = .ok (⟨u, t, exp⟩, cache_insert cache route
              ⟨⟨u, t, exp⟩, compute_cache_expiry now_unix inst_now exp⟩)
      ∧ cache_lookup
            (cache_insert cache route
              ⟨⟨u, t, exp⟩, compute_cache_expiry now_unix inst_now exp⟩) route
          = some ⟨⟨u, t, exp⟩, compute_cache_expiry now_unix inst_now exp⟩) := by
  refine ⟨?_, ?_, ?_, ?_, ?_⟩
  · intro now_unix inst_now exp h hrep
    simp only [compute_cache_expiry, TOKEN_CACHE_SAFETY_WINDOW, INSTANT_MAX] at hrep ⊢
    split
    · omega
    · split <;> omega
  · intro now_unix inst_now exp hover
    simp only [compute_cache_expiry, TOKEN_CACHE_SAFETY_WINDOW, INSTANT_MAX] at hover ⊢
    split
    · rfl
    · omega
  · intro now_unix inst_now exp s v hs hvalid
    simp only [CachedToken.is_valid, decide_eq_true_eq] at hvalid
    simp only [compute_cache_expiry, TOKEN_CACHE_SAFETY_WINDOW, INSTANT_MAX] at hvalid
    split at hvalid
    · omega
    · split at hvalid <;> omega
  · intro now_unix inst_now v hrep
    simp only [INSTANT_MAX] at hrep
    constructor <;>
      · simp only [CachedToken.is_valid, compute_cache_expiry, TOKEN_CACHE_SAFETY_WINDOW,
          INSTANT_MAX, decide_eq_true_eq, decide_eq_false_iff_not]
        split
        · omega
        · split <;> omega
  · intro fetched cache route now_unix inst_now u t exp hmiss hu ht hexp
    constructor
    · simp [get_cached_cas_jwt, refresh_cas_jwt, cache_token, hmiss, hu, ht, hexp]
    · simp [cache_lookup, cache_insert]

/-- Witness for `token_cache_safety_window_spec` at concrete times. -/
theorem token_cache_safety_window_spec_witness :
    compute_cache_expiry 1000 500 1100 = 500 + (1100 - 1000) - 60 :=
  token_cache_safety_window_spec.1 1000 500 1100 (by decide) (by decide)

/-- C3 counterexample: the candidate list of `fetch_file_metadata` is not equal
to the list built by `build_resolve_urls` — the former has four entries (it
adds a no-prefix legacy fallback), the latter three. -/
theorem candidate_urls_counterexample :
    candidate_urls "https://huggingface.co" "models" "mattt/demo" "README.md" "main"
      ≠ build_resolve_urls "https://huggingface.co" ⟨.Model, "mattt/demo"⟩ "README.md" "main" := by
  intro h
  have hl := congrArg List.length h
  simp [candidate_urls, build_resolve_urls] at hl

/-- C3 amended: `fetch_file_metadata` builds four candidate URLs; its first
three coincide, shape for shape and in the same order, with the three URLs of
`build_resolve_urls` applied to the trailing-slash-trimmed endpoint, and the
fourth is the extra no-prefix legacy form. -/
theorem candidate_urls_refinement :
    (∀ endpoint rty full path rev,
      (candidate_urls endpoint (repo_type_plural rty) full path rev).take 3
        = build_resolve_urls (trim_end_matches_slash endpoint) ⟨rty, full⟩ path rev)
  ∧ (∀ endpoint rts full path rev, (candidate_urls endpoint rts full path rev).length = 4)
  ∧ (∀ endpoint info path rev, (build_resolve_urls endpoint info path rev).length = 3)
  ∧ (∀ endpoint rty full path rev,
      (candidate_urls endpoint (repo_type_plural rty) full path rev).getLastD ""
        = trim_end_matches_slash endpoint ++ "/" ++ full ++ "/resolve/" ++ urlencode rev
            ++ "/" ++ urlencode path) := by
  refine ⟨?_, ?_, ?_, ?_⟩
  · intro endpoint rty full path rev
    cases rty <;> rfl
  · intro endpoint rts full path rev
    rfl
  · intro endpoint info path rev
    rfl
  · intro endpoint rty full path rev
    cases rty <;> rfl

/-- C7 counterexample: the rewrite condition is a literal string-prefix test,
not a host test. A route whose host merely extends the default domain
("huggingface.co.evil.example") is not rooted at the default public hosting
domain, yet it is rewritten (and mangled) rather than returned unchanged. -/
theorem rewrite_refresh_route_counterexample :
    rewrite_refresh_route "https://huggingface.co.evil.example/api/x" "https://example.com"
        = "https://example.com.evil.example/api/x"
    ∧ rewrite_refresh_route "https://huggingface.co.evil.example/api/x" "https://example.com"
        ≠ "https://huggingface.co.evil.example/api/x" := by
  decide

/-- C7 amended: the refresh route from a `Link` entry with `rel="xet-auth"` is
preferred over the dedicated `x-xet-refresh-route` header; a found route is
rewritten if and only if the route string literally starts with
"https://huggingface.co" and the configured endpoint is nonempty, in which
case each leading copy of that literal is replaced by the endpoint (trailing
slashes trimmed); otherwise the route is returned unchanged. -/
theorem refresh_route_preference_and_rewrite :
    (∀ headers endpoint h r,
      header_to_string headers HEADER_X_XET_HASH = some h →
      extract_refresh_route headers endpoint = some r →
      parse_xet_file_data headers endpoint = some ⟨h, r⟩)
  ∧ (∀ headers endpoint h route,
      header_to_string headers HEADER_X_XET_HASH = some h →
      extract_refresh_route headers endpoint = none →
      header_to_string headers HEADER_X_XET_REFRESH_ROUTE = some route →
      parse_xet_file_data headers endpoint = some ⟨h, rewrite_refresh_route route endpoint⟩)
  ∧ (∀ route endpoint, starts_with route HF_ENDPOINT = false →
      rewrite_refresh_route route endpoint = route)
  ∧ (∀ route, rewrite_refresh_route route "" = route)
  ∧ (∀ route endpoint, starts_with route HF_ENDPOINT = true → (endpoint == "") = false →
      rewrite_refresh_route route endpoint
        = trim_end_matches_slash endpoint ++ trim_start_matches HF_ENDPOINT route)
  ∧ extract_refresh_route
        [("link", "<https://huggingface.co/api/models/foo/xet-read-token/main>; rel=\"xet-auth\"")]
        "https://example.com"
      = some "https://example.com/api/models/foo/xet-read-token/main"
  ∧ rewrite_refresh_route "https://huggingface.co/api/models/foo/xet-read-token/main"
        "https://example.com"
      = "https://example.com/api/models/foo/xet-read-token/main"
  ∧ rewrite_refresh_route "https://huggingface.co/api/models/foo/xet-read-token/main"
        "https://huggingface.co"
      = "https://huggingface.co/api/models/foo/xet-read-token/main" := by
  refine ⟨?_, ?_, ?_, ?_, ?_, by decide, by decide, by decide⟩
  · intro headers endpoint h r hh he
    simp [parse_xet_file_data, hh, he]
  · intro headers endpoint h route hh he hr
    simp [parse_xet_file_data, hh, he, hr]
  · intro route endpoint h
    simp [rewrite_refresh_route, h]
  · intro route
    simp [rewrite_refresh_route]
  · intro route endpoint h1 h2
    simp [rewrite_refresh_route, h1, h2]

/-- Witness for `refresh_route_preference_and_rewrite` at a concrete header
map carrying both route sources. -/
theorem refresh_route_preference_witness :
    parse_xet_file_data
        [("x-xet-hash", "sha256:abc"),
          ("link", "<https://huggingface.co/api/models/foo/xet-read-token/main>; rel=\"xet-auth\""),
          ("x-xet-refresh-route", "https://huggingface.co/other")]
        "https://example.com"
      = some ⟨"sha256:abc", "https://example.com/api/models/foo/xet-read-token/main"⟩ :=
  refresh_route_preference_and_rewrite.1
    [("x-xet-hash", "sha256:abc"),
      ("link", "<https://huggingface.co/api/models/foo/xet-read-token/main>; rel=\"xet-auth\""),
      ("x-xet-refresh-route", "https://huggingface.co/other")]
    "https://example.com" "sha256:abc" "https://example.com/api/models/foo/xet-read-token/main"
    (by decide) (by decide)

/-- C5 counterexample: with a token configured, a download URL that
`Url::parse` rejects (so has no host at all, in particular no host equal to
the endpoint's) still gets the bearer token attached, because
`should_send_auth` defaults to `true` when either URL fails to parse. The
oracle `urlParseFixture` records the two `url`-crate facts this uses:
"not a url" has no scheme (`RelativeUrlWithoutBase`) and the default endpoint
parses with domain "huggingface.co". -/
theorem should_send_auth_counterexample :
    should_send_auth urlParseFixture ⟨"https://huggingface.co", some "tok"⟩ "not a url" = true
    ∧ urlParseFixture "not a url" = none
    ∧ urlParseFixture "https://huggingface.co" = some ⟨some "huggingface.co"⟩ := by
  decide

/-- C5 amended: for every behaviour of the external `Url::parse` — so in
particular for the `url` crate's — with no token nothing is sent; when both
the download URL and the endpoint parse, the token is attached exactly when
their `Url::domain` values are equal, so a parseable URL whose domain differs
from the parseable endpoint's never receives the token; but when either side
fails to parse the token is attached. -/
theorem should_send_auth_spec :
    (∀ parse client url, client.token = none →
      should_send_auth parse client url = false)
  ∧ (∀ parse client url t target base, client.token = some t →
      parse url = some target → parse client.endpoint = some base →
      should_send_auth parse client url = (target.domain == base.domain))
  ∧ (∀ parse client url t target base, client.token = some t →
      parse url = some target → parse client.endpoint = some base →
      target.domain ≠ base.domain → should_send_auth parse client url = false)
  ∧ (∀ parse client url t, client.token = some t → parse url = none →
      should_send_auth parse client url = true)
  ∧ (∀ parse client url t, client.token = some t → parse client.endpoint = none →
      should_send_auth parse client url = true) := by
  refine ⟨?_, ?_, ?_, ?_, ?_⟩
  · intro parse client url h
    simp [should_send_auth, h]
  · intro parse client url t target base ht hu he
    simp [should_send_auth, ht, hu, he]
  · intro parse client url t target base ht hu he hne
    simp [should_send_auth, ht, hu, he, hne]
  · intro parse client url t ht hu
    simp [should_send_auth, ht, hu]
  · intro parse client url t ht he
    cases hu : parse url <;> simp [should_send_auth, ht, hu, he]

/-- Witness for `should_send_auth_spec` at a concrete third-party URL. -/
theorem should_send_auth_spec_witness :
    should_send_auth urlParseFixture ⟨"https://huggingface.co", some "tok"⟩
        "https://cdn.example.org/f" = false :=
  should_send_auth_spec.2.2.1 urlParseFixture ⟨"https://huggingface.co", some "tok"⟩
    "https://cdn.example.org/f" "tok" ⟨some "cdn.example.org"⟩ ⟨some "huggingface.co"⟩
    rfl (by decide) (by decide) (by decide)

/-- C1 counterexample: a batch of three whose second request fails returns an
`OperationFailed` error naming the failing path and error — not a list with
the first request's destination; the completed destinations are dropped. The
trace also shows the third request is never attempted. -/
theorem download_files_batch_counterexample :
    download_files_batch batchDl batchReqs
        = .error (.OperationFailed "Failed to download b: Network error: boom")
    ∧ (download_files_batch_trace batchDl batchReqs).2
        = [⟨"o/r", "a", "/tmp/a", none⟩, ⟨"o/r", "b", "/tmp/b", none⟩] := by
  decide

/-- C1 amended: the batch runs strictly sequentially and stops at the first
failure; the requests attempted are exactly the successful leading segment
plus the failing request (later requests never run), the error names the
failing request's path and error, and on failure the call returns only that
error — the destinations of already-completed files are not returned (the
full destination list is returned only when every request succeeds). -/
theorem download_files_batch_spec :
    (∀ dl requests, (∀ q ∈ requests, dl q = .ok ()) →
      download_files_batch_trace dl requests
        = (.ok (requests.map (fun r => r.destination)), requests))
  ∧ (∀ dl pre r post e, (∀ q ∈ pre, dl q = .ok ()) → dl r = .error e →
      download_files_batch_trace dl (pre ++ r :: post)
        = (.error (.OperationFailed ("Failed to download " ++ r.path ++ ": " ++ e.display)),
            pre ++ [r])) := by
  constructor
  · intro dl requests h
    induction requests with
    | nil => rfl
    | cons q rest ih =>
      have hq : dl q = .ok () := h q (List.mem_cons_self q rest)
      have hrest : ∀ p ∈ rest, dl p = .ok () := fun p hp => h p (List.mem_cons_of_mem q hp)
      simp [download_files_batch_trace, hq, ih hrest]
  · intro dl pre r post e hpre hr
    induction pre with
    | nil => simp [download_files_batch_trace, hr]
    | cons p rest ih =>
      have hp : dl p = .ok () := hpre p (List.mem_cons_self p rest)
      have hrest : ∀ q ∈ rest, dl q = .ok () := fun q hq => hpre q (List.mem_cons_of_mem p hq)
      simp [download_files_batch_trace, hp, ih hrest]

/-- Witness for `download_files_batch_spec` at a concrete failing batch. -/
theorem download_files_batch_spec_witness :
    download_files_batch_trace batchDl
        ([⟨"o/r", "a", "/tmp/a", none⟩] ++ ⟨"o/r", "b", "/tmp/b", none⟩
            :: [⟨"o/r", "c", "/tmp/c", none⟩])
      = (.error (.OperationFailed
            ("Failed to download " ++ "b" ++ ": " ++ (XetError.NetworkError "boom").display)),
          [⟨"o/r", "a", "/tmp/a", none⟩] ++ [⟨"o/r", "b", "/tmp/b", none⟩]) :=
  download_files_batch_spec.2 batchDl [⟨"o/r", "a", "/tmp/a", none⟩]
    ⟨"o/r", "b", "/tmp/b", none⟩ [⟨"o/r", "c", "/tmp/c", none⟩] (.NetworkError "boom")
    (by decide) (by decide)

/-- C4: `download_file` attempts the states ResolveMetadata, TryCas, TryHttp,
Legacy in strict order, each at most once (the trace is a sublist of the
ordered four-state list); a metadata-resolution failure goes directly to
Legacy; a CAS or HTTP success ends the call; a CAS failure falls through to
HTTP and an HTTP failure falls through to Legacy without aborting the call. -/
theorem download_file_state_machine :
    (∀ env client repo path destination revision res trace,
      download_file_trace env client repo path destination revision = (res, trace) →
      trace.Sublist [DState.resolveMetadata, DState.tryCas, DState.tryHttp, DState.legacy])
  ∧ (∀ env client repo path destination revision info e,
      repo ≠ "" → path ≠ "" → destination ≠ "" → parse_repo repo = .ok info →
      env.fetchMeta (repo_type_plural info.repo_type) info.full_name path (revision.getD "main")
          = .error e →
      download_file_trace env client repo path destination revision
        = (download_file_legacy env client info path destination (some (revision.getD "main")),
            [DState.resolveMetadata, DState.legacy]))
  ∧ (∀ env client repo path destination revision info m xd,
      repo ≠ "" → path ≠ "" → destination ≠ "" → parse_repo repo = .ok info →
      env.fetchMeta (repo_type_plural info.repo_type) info.full_name path (revision.getD "main")
          = .ok m →
      m.xet_file_data = some xd →
      env.casDownload xd m.size destination = .ok () →
      download_file_trace env client repo path destination revision
        = (.ok (), [DState.resolveMetadata, DState.tryCas]))
  ∧ (∀ env client repo path destination revision info m xd e,
      repo ≠ "" → path ≠ "" → destination ≠ "" → parse_repo repo = .ok info →
      env.fetchMeta (repo_type_plural info.repo_type) info.full_name path (revision.getD "main")
          = .ok m →
      m.xet_file_data = some xd →
      env.casDownload xd m.size destination = .error e →
      download_http_with_metadata env client m destination = .ok () →
      download_file_trace env client repo path destination revision
        = (.ok (), [DState.resolveMetadata, DState.tryCas, DState.tryHttp]))
  ∧ (∀ env client repo path destination revision info m xd e1 e2,
      repo ≠ "" → path ≠ "" → destination ≠ "" → parse_repo repo = .ok info →
      env.fetchMeta (repo_type_plural info.repo_type) info.full_name path (revision.getD "main")
          = .ok m →
      m.xet_file_data = some xd →
      env.casDownload xd m.size destination = .error e1 →
      download_http_with_metadata env client m destination = .error e2 →
      download_file_trace env client repo path destination revision
        = (download_file_legacy env client info path destination (some (revision.getD "main")),
            [DState.resolveMetadata, DState.tryCas, DState.tryHttp, DState.legacy]))
  ∧ (∀ env client repo path destination revision info m,
      repo ≠ "" → path ≠ "" → destination ≠ "" → parse_repo repo = .ok info →
      env.fetchMeta (repo_type_plural info.repo_type) info.full_name path (revision.getD "main")
          = .ok m →
      m.xet_file_data = none →
      download_http_with_metadata env client m destination = .ok () →
      download_file_trace env client repo path destination revision
        = (.ok (), [DState.resolveMetadata, DState.tryHttp]))
  ∧ (∀ env client repo path destination revision info m e,
      repo ≠ "" → path ≠ "" → destination ≠ "" → parse_repo repo = .ok info →
      env.fetchMeta (repo_type_plural info.repo_type) info.full_name path (revision.getD "main")
          = .ok m →
      m.xet_file_data = none →
      download_http_with_metadata env client m destination = .error e →
      download_file_trace env client repo path destination revision
        = (download_file_legacy env client info path destination (some (revision.getD "main")),
            [DState.resolveMetadata, DState.tryHttp, DState.legacy])) := by
  refine ⟨?_, ?_, ?_, ?_, ?_, ?_, ?_⟩
  · intro env client repo path destination revision res trace h
    unfold download_file_trace at h
    split at h
    · cases h; decide
    · split at h
      · cases h; decide
      · split at h
        · cases h; decide
        · split at h
          · cases h; decide
          · split at h
            · split at h
              · split at h
                · cases h; decide
                · split at h
                  · cases h; decide
                  · cases h; decide
              · split at h
                · cases h; decide
                · cases h; decide
            · cases h; decide
  · intro env client repo path destination revision info e h1 h2 h3 h4 h5
    simp [download_file_trace, h1, h2, h3, h4, h5]
  · intro env client repo path destination revision info m xd h1 h2 h3 h4 h5 h6 h7
    simp [download_file_trace, h1, h2, h3, h4, h5, h6, h7]
  · intro env client repo path destination revision info m xd e h1 h2 h3 h4 h5 h6 h7 h8
    simp [download_file_trace, h1, h2, h3, h4, h5, h6, h7, h8]
  · intro env client repo path destination revision info m xd e1 e2 h1 h2 h3 h4 h5 h6 h7 h8
    simp [download_file_trace, h1, h2, h3, h4, h5, h6, h7, h8]
  · intro env client repo path destination revision info m h1 h2 h3 h4 h5 h6 h7
    simp [download_file_trace, h1, h2, h3, h4, h5, h6, h7]
  · intro env client repo path destination revision info m e h1 h2 h3 h4 h5 h6 h7
    simp [download_file_trace, h1, h2, h3, h4, h5, h6, h7]

/-- Witness for `download_file_state_machine`: a concrete call whose metadata
resolution fails proceeds directly to the Legacy state. -/
theorem download_file_state_machine_witness :
    download_file_trace envResolveFail clientNoToken "o/r" "f" "/tmp/f" none
      = (download_file_legacy envResolveFail clientNoToken ⟨.Model, "o/r"⟩ "f" "/tmp/f"
            (some "main"),
          [DState.resolveMetadata, DState.legacy]) :=
  download_file_state_machine.2.1 envResolveFail clientNoToken "o/r" "f" "/tmp/f" none
    ⟨.Model, "o/r"⟩ (.NetworkError "offline") (by decide) (by decide) (by decide)
    (by decide) (by decide)

/-- C6 counterexample: in an environment where metadata resolution yields CAS
data and the CAS transfer succeeds while HTTP and legacy fail, `download_file`
attempts TryCas and succeeds, but `get_file_content` has no TryCas state: it
goes ResolveMetadata, TryHttp, Legacy and fails. The two orchestrations do not
follow the same four-state logic. -/
theorem get_file_content_missing_cas_state :
    download_file_trace envCasOnly clientNoToken "o/r" "f" "/tmp/f" none
        = (.ok (), [DState.resolveMetadata, DState.tryCas])
    ∧ get_file_content_trace envCasOnly clientNoToken "o/r" "f" none
        = (.error (.NetworkError
              "Could not retrieve file. Tried multiple endpoints. Last error: down"),
            [DState.resolveMetadata, DState.tryHttp, DState.legacy]) := by
  decide

/-- C6 amended: `get_file_content` follows the download orchestration minus
the TryCas state — ResolveMetadata, TryHttp, Legacy in strict order, each at
most once, returning an in-memory buffer: resolution failure goes directly to
Legacy, an HTTP success ends the call with the bytes, an HTTP failure falls
through to Legacy. (Pointer-file interpretation happens in `get_file_info`,
not here.) -/
theorem get_file_content_state_machine :
    (∀ env client repo path revision res trace,
      get_file_content_trace env client repo path revision = (res, trace) →
      trace.Sublist [DState.resolveMetadata, DState.tryHttp, DState.legacy])
  ∧ (∀ env client repo path revision info e,
      repo ≠ "" → path ≠ "" → parse_repo repo = .ok info →
      env.fetchMeta (repo_type_plural info.repo_type) info.full_name path (revision.getD "main")
          = .error e →
      get_file_content_trace env client repo path revision
        = (get_file_content_legacy env client info path (revision.getD "main"),
            [DState.resolveMetadata, DState.legacy]))
  ∧ (∀ env client repo path revision info m bytes,
      repo ≠ "" → path ≠ "" → parse_repo repo = .ok info →
      env.fetchMeta (repo_type_plural info.repo_type) info.full_name path (revision.getD "main")
          = .ok m →
      http_get_bytes env client m.download_url = .ok bytes →
      get_file_content_trace env client repo path revision
        = (.ok bytes, [DState.resolveMetadata, DState.tryHttp]))
  ∧ (∀ env client repo path revision info m e,
      repo ≠ "" → path ≠ "" → parse_repo repo = .ok info →
      env.fetchMeta (repo_type_plural info.repo_type) info.full_name path (revision.getD "main")
          = .ok m →
      http_get_bytes env client m.download_url = .error e →
      get_file_content_trace env client repo path revision
        = (get_file_content_legacy env client info path (revision.getD "main"),
            [DState.resolveMetadata, DState.tryHttp, DState.legacy])) := by
  refine ⟨?_, ?_, ?_, ?_⟩
  · intro env client repo path revision res trace h
    unfold get_file_content_trace at h
    split at h
    · cases h; decide
    · split at h
      · cases h; decide
      · split at h
        · cases h; decide
        · split at h
          · split at h
            · cases h; decide
            · cases h; decide
          · cases h; decide
  · intro env client repo path revision info e h1 h2 h3 h4
    simp [get_file_content_trace, h1, h2, h3, h4]
  · intro env client repo path revision info m bytes h1 h2 h3 h4 h5
    simp [get_file_content_trace, h1, h2, h3, h4, h5]
  · intro env client repo path revision info m e h1 h2 h3 h4 h5
    simp [get_file_content_trace, h1, h2, h3, h4, h5]

/-- Witness for `get_file_content_state_machine`: a concrete call whose
metadata resolution fails proceeds directly to the Legacy state. -/
theorem get_file_content_state_machine_witness :
    get_file_content_trace envResolveFail clientNoToken "o/r" "f" none
      = (get_file_content_legacy envResolveFail clientNoToken ⟨.Model, "o/r"⟩ "f" "main",
          [DState.resolveMetadata, DState.legacy]) :=
  get_file_content_state_machine.2.1 envResolveFail clientNoToken "o/r" "f" none
    ⟨.Model, "o/r"⟩ (.NetworkError "offline") (by decide) (by decide) (by decide) (by decide)

end SwiftXet
